import Mathlib

/-!
Shallow embedding of the Binance volume-spike analyser
(src/streamlit_app.py).  Network responses are modelled as explicit
inputs; Python exceptions are modelled with Except; the in-place
mutation of a pandas DataFrame by detect_volume_spikes is modelled by
returning the updated frame alongside the filtered spike rows.
-/

/-- Python exception kinds that the embedded code can raise. -/
inductive PyErr where
  | typeError
  | valueError
  | keyError
  deriving DecidableEq, Repr

/-- Boolean test that pat occurs contiguously inside the character list,
the Python expression pat in s. -/
def subList (pat : List Char) : List Char → Bool
  | [] => pat.isEmpty
  | c :: rest => pat.isPrefixOf (c :: rest) || subList pat rest

/-- Python s.endswith(pat). -/
def pyEndsWith (s pat : String) : Bool := pat.data.isSuffixOf s.data

/-- Python pat in s (substring containment). -/
def pyContains (s pat : String) : Bool := subList pat.data s.data

/-- One record of the 24h ticker payload, with its quoteVolume already
parsed (the source calls float on the string-encoded field). -/
structure Ticker where
  symbol : String
  quoteVolume : ℚ
  deriving DecidableEq, Repr

/-- Response of the ranking endpoint: either a list of records or a
malformed (non-list) document. -/
inductive TickerPayload where
  | records (ts : List Ticker)
  | malformed
  deriving DecidableEq, Repr

/-- Filter from the source: the symbol ends with USDT and does not
contain PERP. -/
def qualifies (t : Ticker) : Bool :=
  pyEndsWith t.symbol "USDT" && !(pyContains t.symbol "PERP")

/-- Descending-by-quoteVolume comparison used by sorted(..., reverse=True). -/
def qvGe (a b : Ticker) : Prop := b.quoteVolume ≤ a.quoteVolume

instance : DecidableRel qvGe :=
  fun a b => inferInstanceAs (Decidable (b.quoteVolume ≤ a.quoteVolume))

/-- sorted(data, key=lambda x: float(x[quoteVolume]), reverse=True):
stable descending sort by quote volume. -/
def sortByVolume (ts : List Ticker) : List Ticker := ts.insertionSort qvGe

/-- Loop body of get_top_futures_symbols: append when the filter passes,
then break as soon as the accumulated list has reached limit (the length
check runs after the conditional append). -/
def topLoop (limit : ℕ) : List Ticker → List String → List String
  | [], acc => acc
  | t :: ts, acc =>
    let acc' := if qualifies t then acc ++ [t.symbol] else acc
    if limit ≤ acc'.length then acc' else topLoop limit ts acc'

/-- get_top_futures_symbols(limit): sorts the ticker payload by
descending quote volume and collects up to limit symbols passing the
USDT/PERP filter.  Iterating a non-list JSON document raises a TypeError
in the source (there is no try/except), modelled as Except.error.  The
source defaults limit to 20. -/
def get_top_futures_symbols (p : TickerPayload) (limit : ℕ) : Except PyErr (List String) :=
  match p with
  | .malformed => .error .typeError
  | .records ts => .ok (topLoop limit (sortByVolume ts) [])

/-- One data row as consumed downstream: open time, base volume and quote
volume (columns timestamp / volume / quote_asset_volume after the astype
conversions; the other nine kline fields are never read). -/
structure Candle where
  timestamp : ℚ
  volume : ℚ
  quote_asset_volume : ℚ
  deriving DecidableEq, Repr

/-- Raw klines response: either a list of rows (arrays of already-parsed
numbers, possibly ragged) or a non-tabular error object such as the
exchange's code/msg document, whose keys are disjoint from the twelve
kline column names. -/
inductive KlinesPayload where
  | rows (rs : List (List ℚ))
  | errorObject
  deriving DecidableEq, Repr

/-- Derived columns that detect_volume_spikes writes onto the frame. -/
structure ScoredCols where
  volume_ma : List (Option ℚ)
  volume_std : List (Option ℝ)
  spike : List Bool

/-- A pandas DataFrame as used by the app: the base rows plus, once
detect_volume_spikes has run, the three derived columns. -/
structure Frame where
  rows : List Candle
  scored : Option ScoredCols

/-- Projection of one kline row to the consumed columns (indices 0, 5
and 7).  pandas pads fields missing from a ragged row with NaN; the
padding is modelled by the getD default, which no theorem inspects, since
every well-formed kline row carries all twelve fields. -/
def rowToCandle (r : List ℚ) : Candle :=
  { timestamp := r.getD 0 0, volume := r.getD 5 0, quote_asset_volume := r.getD 7 0 }

/-- Width that pd.DataFrame infers for a list of record rows: the maximum
row length. -/
def maxWidth (rs : List (List ℚ)) : ℕ := (rs.map List.length).foldr max 0

/-- fetch_ohlcv: builds the 12-column DataFrame from the response and
coerces the numeric columns.  pd.DataFrame with explicit columns selects
from a dict, so the exchange's error object (keys disjoint from the kline
columns) yields an empty frame; a list of rows is NaN-padded to its
maximum width, and a ValueError is raised (with no try/except to catch
it) exactly when that width differs from the twelve passed columns; an
empty list yields an empty frame. -/
def fetch_ohlcv (p : KlinesPayload) : Except PyErr Frame :=
  match p with
  | .errorObject => .ok { rows := [], scored := none }
  | .rows rs =>
    if rs.isEmpty then
      .ok { rows := [], scored := none }
    else if maxWidth rs = 12 then
      .ok { rows := rs.map rowToCandle, scored := none }
    else
      .error .valueError

/-- Trailing seven-row window of the volume column ending at index i
(pandas rolling(window=7) over rows i-6..i). -/
def trailingWindow (vols : List ℚ) (i : ℕ) : List ℚ :=
  (vols.take (i + 1)).drop (i + 1 - 7)

/-- Mean over the trailing seven-row window. -/
def windowMean (vols : List ℚ) (i : ℕ) : ℚ := (trailingWindow vols i).sum / 7

/-- Sample variance (ddof = 1) over the trailing seven-row window. -/
def windowVar (vols : List ℚ) (i : ℕ) : ℚ :=
  ((trailingWindow vols i).map (fun x => (x - windowMean vols i) ^ 2)).sum / 6

/-- Column volume_ma: rolling(window=7).mean(), NaN until seven rows
exist, modelled as none. -/
def volMA (vols : List ℚ) (i : ℕ) : Option ℚ :=
  if 7 ≤ i + 1 then some (windowMean vols i) else none

/-- Rolling sample variance with the same NaN behaviour. -/
def volVarOpt (vols : List ℚ) (i : ℕ) : Option ℚ :=
  if 7 ≤ i + 1 then some (windowVar vols i) else none

/-- Column volume_std: rolling(window=7).std(), the square root of the
sample variance. -/
noncomputable def volStd (vols : List ℚ) (i : ℕ) : Option ℝ :=
  (volVarOpt vols i).map (fun v => Real.sqrt (v : ℝ))

open Classical in
/-- Column spike: volume > volume_ma + threshold_factor * volume_std.
Comparison against NaN is False in pandas, hence false whenever the
rolling statistics are undefined. -/
noncomputable def spikeFlag (vols : List ℚ) (threshold_factor : ℚ) (i : ℕ) : Bool :=
  match volMA vols i, volStd vols i with
  | some m, some s =>
    if ((vols.getD i 0 : ℝ) > (m : ℝ) + (threshold_factor : ℝ) * s) then true else false
  | _, _ => false

/-- The absolute notional floor hard-coded in the source filter
(quote_asset_volume >= 100_000_000). -/
def volumeFloor : ℚ := 100000000

/-- Default value of the threshold_factor parameter in the source header
def detect_volume_spikes(df, threshold_factor=2). -/
def detect_volume_spikes_default_threshold : ℚ := 2

/-- detect_volume_spikes: writes the three derived columns onto the frame
it was given (in-place mutation, modelled by returning the updated frame
first) and returns the rows, with their positional index, where the spike
column is true and quote_asset_volume is at least the floor. -/
noncomputable def detect_volume_spikes (df : Frame) (threshold_factor : ℚ) :
    Frame × List (ℕ × Candle) :=
  let vols := df.rows.map Candle.volume
  let n := df.rows.length
  let scoredDf : Frame :=
    { rows := df.rows
      scored := some
        { volume_ma := (List.range n).map (volMA vols)
          volume_std := (List.range n).map (volStd vols)
          spike := (List.range n).map (spikeFlag vols threshold_factor) } }
  let spikes := df.rows.enum.filter
    (fun p => spikeFlag vols threshold_factor p.1 && decide (volumeFloor ≤ p.2.quote_asset_volume))
  (scoredDf, spikes)

/-- Payload handed to the renderer: volume line, spike scatter, moving
average line, and the possibly-empty list of rows highlighted for the
selected date. -/
structure PlotPayload where
  line : List (ℚ × ℚ)
  spikePoints : List (ℚ × ℚ)
  maLine : List (Option ℚ)
  highlight : List Candle

/-- plot_volume_spikes: reads the volume_ma column (a KeyError if detect
never ran on the frame) and, when a date is selected, scatters the rows
whose timestamp equals it; an empty selection is silently skipped. -/
def plot_volume_spikes (df : Frame) (spikes : List (ℕ × Candle)) (selected_date : Option ℚ) :
    Except PyErr PlotPayload :=
  match df.scored with
  | none => .error .keyError
  | some cols =>
    .ok { line := df.rows.map (fun c => (c.timestamp, c.volume))
          spikePoints := spikes.map (fun p => (p.2.timestamp, p.2.volume))
          maLine := cols.volume_ma
          highlight :=
            match selected_date with
            | none => []
            | some d => df.rows.filter (fun c => c.timestamp = d) }

/-- Threshold factor passed at the aggregation call site
detect_volume_spikes(df, threshold_factor=2.2). -/
def batchThreshold : ℚ := 2.2

/-- The module-level aggregation loop over CONTRACTS: fetch, detect and
keep the symbols whose spike frame is non-empty, pairing the mutated full
frame with its spike rows.  resp models the network response per symbol.
Any exception escapes the loop, because the source has no try/except. -/
noncomputable def runBatch (resp : String → KlinesPayload) :
    List String → Except PyErr (List (String × Frame × List (ℕ × Candle)))
  | [] => .ok []
  | c :: cs =>
    match fetch_ohlcv (resp c) with
    | .error e => .error e
    | .ok df =>
      let r := detect_volume_spikes df batchThreshold
      match runBatch resp cs with
      | .error e => .error e
      | .ok rest => .ok (if r.2.isEmpty then rest else (c, r.1, r.2) :: rest)

/-! ### Helper lemmas about the spike detector -/

lemma volMA_eq_none {vols : List ℚ} {i : ℕ} (h : i + 1 < 7) : volMA vols i = none := by
  rw [volMA, if_neg (by omega)]

lemma volMA_eq_some {vols : List ℚ} {i : ℕ} (h : 7 ≤ i + 1) :
    volMA vols i = some (windowMean vols i) := by
  rw [volMA, if_pos h]

lemma volStd_eq_none {vols : List ℚ} {i : ℕ} (h : i + 1 < 7) : volStd vols i = none := by
  rw [volStd, volVarOpt, if_neg (by omega)]
  rfl

lemma volStd_eq_some {vols : List ℚ} {i : ℕ} (h : 7 ≤ i + 1) :
    volStd vols i = some (Real.sqrt ((windowVar vols i : ℚ) : ℝ)) := by
  rw [volStd, volVarOpt, if_pos h]
  rfl

lemma spikeFlag_eq_false_of_small {vols : List ℚ} {tf : ℚ} {i : ℕ} (h : i + 1 < 7) :
    spikeFlag vols tf i = false := by
  rw [spikeFlag, volMA_eq_none h]

lemma spikeFlag_true_iff (vols : List ℚ) (tf : ℚ) (i : ℕ) :
    spikeFlag vols tf i = true ↔
      7 ≤ i + 1 ∧
        ((vols.getD i 0 : ℝ) > (windowMean vols i : ℝ) +
          (tf : ℝ) * Real.sqrt ((windowVar vols i : ℚ) : ℝ)) := by
  by_cases h : 7 ≤ i + 1
  · simp only [spikeFlag, volMA_eq_some h, volStd_eq_some h]
    by_cases hgt :
        ((vols.getD i 0 : ℝ) > (windowMean vols i : ℝ) +
          (tf : ℝ) * Real.sqrt ((windowVar vols i : ℚ) : ℝ))
    · rw [if_pos hgt]
      exact ⟨fun _ => ⟨h, hgt⟩, fun _ => rfl⟩
    · rw [if_neg hgt]
      exact ⟨fun ht => absurd ht (by simp), fun hc => absurd hc.2 hgt⟩
  · rw [spikeFlag_eq_false_of_small (by omega)]
    exact ⟨fun ht => absurd ht (by simp), fun hc => absurd hc.1 h⟩

lemma mem_spikes_iff (df : Frame) (tf : ℚ) (i : ℕ) (c : Candle) :
    (i, c) ∈ (detect_volume_spikes df tf).2 ↔
      df.rows[i]? = some c ∧
        spikeFlag (df.rows.map Candle.volume) tf i = true ∧
        volumeFloor ≤ c.quote_asset_volume := by
  show (i, c) ∈ List.filter _ df.rows.enum ↔ _
  rw [List.mem_filter, List.mk_mem_enum_iff_getElem?]
  simp only [Bool.and_eq_true, decide_eq_true_eq]

lemma getD_volume_of_getElem {df : Frame} {i : ℕ} {c : Candle}
    (h : df.rows[i]? = some c) :
    (df.rows.map Candle.volume).getD i 0 = c.volume := by
  rw [List.getD_eq_getElem?_getD, List.getElem?_map, h]
  rfl

/-- Full characterisation of membership in the spike rows, with the rolling
statistics written out. -/
lemma mem_spikes_char (df : Frame) (tf : ℚ) (i : ℕ) (c : Candle) :
    (i, c) ∈ (detect_volume_spikes df tf).2 ↔
      df.rows[i]? = some c ∧ 7 ≤ i + 1 ∧
        ((c.volume : ℝ) > (windowMean (df.rows.map Candle.volume) i : ℝ) +
          (tf : ℝ) * Real.sqrt ((windowVar (df.rows.map Candle.volume) i : ℚ) : ℝ)) ∧
        volumeFloor ≤ c.quote_asset_volume := by
  rw [mem_spikes_iff]
  constructor
  · rintro ⟨hget, hflag, hfloor⟩
    rw [spikeFlag_true_iff] at hflag
    rw [getD_volume_of_getElem hget] at hflag
    exact ⟨hget, hflag.1, hflag.2, hfloor⟩
  · rintro ⟨hget, hge, hgt, hfloor⟩
    refine ⟨hget, ?_, hfloor⟩
    rw [spikeFlag_true_iff, getD_volume_of_getElem hget]
    exact ⟨hge, hgt⟩

lemma spikes_eq_nil_of_short {df : Frame} {tf : ℚ} (h : df.rows.length < 7) :
    (detect_volume_spikes df tf).2 = [] := by
  show List.filter _ df.rows.enum = []
  rw [List.filter_eq_nil_iff]
  rintro ⟨i, c⟩ hmem
  rw [List.mk_mem_enum_iff_getElem?] at hmem
  have hi : i < df.rows.length := (List.getElem?_eq_some.mp hmem).1
  have : spikeFlag (df.rows.map Candle.volume) tf i = false :=
    spikeFlag_eq_false_of_small (by omega)
  simp [this]

/-! ### Helper lemmas about the symbol ranker -/

instance : IsTotal Ticker qvGe := ⟨fun a b => le_total b.quoteVolume a.quoteVolume⟩

instance : IsTrans Ticker qvGe := ⟨fun _ _ _ h h' => le_trans h' h⟩

lemma sortByVolume_perm (ts : List Ticker) : (sortByVolume ts).Perm ts :=
  List.perm_insertionSort qvGe ts

lemma sortByVolume_sorted (ts : List Ticker) : List.Pairwise qvGe (sortByVolume ts) :=
  List.sorted_insertionSort qvGe ts

lemma topLoop_length_le (limit : ℕ) :
    ∀ (ts : List Ticker) (acc : List String),
      (topLoop limit ts acc).length ≤ max limit (acc.length + 1)
  | [], acc => by
    simp only [topLoop]
    omega
  | t :: ts, acc => by
    simp only [topLoop]
    set acc' := if qualifies t then acc ++ [t.symbol] else acc with hacc
    have hlen : acc'.length ≤ acc.length + 1 := by
      rw [hacc]
      split <;> simp
    by_cases hbr : limit ≤ acc'.length
    · rw [if_pos hbr]
      omega
    · rw [if_neg hbr]
      have := topLoop_length_le limit ts acc'
      omega

lemma topLoop_mem (limit : ℕ) :
    ∀ (ts : List Ticker) (acc : List String) (s : String),
      s ∈ topLoop limit ts acc →
        s ∈ acc ∨ ∃ t, t ∈ ts ∧ qualifies t = true ∧ s = t.symbol
  | [], acc, s => by
    simp only [topLoop]
    exact .inl
  | t :: ts, acc, s => by
    simp only [topLoop]
    set acc' := if qualifies t then acc ++ [t.symbol] else acc with hacc
    have hsub : s ∈ acc' → s ∈ acc ∨ (qualifies t = true ∧ s = t.symbol) := by
      rw [hacc]
      split
      · intro hmem
        rcases List.mem_append.mp hmem with h | h
        · exact .inl h
        · rename_i hq
          exact .inr ⟨hq, by simpa using h⟩
      · exact .inl
    by_cases hbr : limit ≤ acc'.length
    · rw [if_pos hbr]
      intro hmem
      rcases hsub hmem with h | ⟨hq, he⟩
      · exact .inl h
      · exact .inr ⟨t, .head _, hq, he⟩
    · rw [if_neg hbr]
      intro hmem
      rcases topLoop_mem limit ts acc' s hmem with h | ⟨u, hu, hq, he⟩
      · rcases hsub h with h | ⟨hq, he⟩
        · exact .inl h
        · exact .inr ⟨t, .head _, hq, he⟩
      · exact .inr ⟨u, .tail _ hu, hq, he⟩

lemma topLoop_eq_take (limit : ℕ) :
    ∀ (ts : List Ticker) (acc : List String),
      ∃ n, topLoop limit ts acc = acc ++ ((ts.filter qualifies).map Ticker.symbol).take n
  | [], acc => ⟨0, by simp [topLoop]⟩
  | t :: ts, acc => by
    cases hq : qualifies t with
    | true =>
      simp only [topLoop, hq, if_true]
      by_cases hbr : limit ≤ (acc ++ [t.symbol]).length
      · rw [if_pos hbr]
        exact ⟨1, by simp [hq]⟩
      · rw [if_neg hbr]
        obtain ⟨n, hn⟩ := topLoop_eq_take limit ts (acc ++ [t.symbol])
        refine ⟨n + 1, ?_⟩
        rw [hn]
        simp [hq]
    | false =>
      simp only [topLoop, hq, Bool.false_eq_true, if_false]
      by_cases hbr : limit ≤ acc.length
      · rw [if_pos hbr]
        exact ⟨0, by simp⟩
      · rw [if_neg hbr]
        obtain ⟨n, hn⟩ := topLoop_eq_take limit ts acc
        refine ⟨n, ?_⟩
        rw [hn]
        simp [hq]

lemma topLoop_all (limit : ℕ) :
    ∀ (ts : List Ticker) (acc : List String),
      acc.length + (ts.filter qualifies).length < limit →
        topLoop limit ts acc = acc ++ (ts.filter qualifies).map Ticker.symbol
  | [], acc => by
    intro _
    simp [topLoop]
  | t :: ts, acc => by
    intro hlt
    cases hq : qualifies t with
    | true =>
      rw [List.filter_cons_of_pos hq] at hlt
      simp only [List.length_cons] at hlt
      simp only [topLoop, hq, if_true]
      have hbr : ¬ limit ≤ (acc ++ [t.symbol]).length := by
        simp only [List.length_append, List.length_singleton]
        omega
      rw [if_neg hbr, topLoop_all limit ts (acc ++ [t.symbol]) (by
        simp only [List.length_append, List.length_singleton]
        omega)]
      rw [List.filter_cons_of_pos hq]
      simp
    | false =>
      rw [List.filter_cons_of_neg (by simp [hq])] at hlt
      simp only [topLoop, hq, Bool.false_eq_true, if_false]
      have hbr : ¬ limit ≤ acc.length := by omega
      rw [if_neg hbr, topLoop_all limit ts acc (by omega)]
      rw [List.filter_cons_of_neg (by simp [hq])]

lemma qualifies_iff (t : Ticker) :
    qualifies t = true ↔
      pyEndsWith t.symbol "USDT" = true ∧ pyContains t.symbol "PERP" = false := by
  simp [qualifies]

/-- C3 counterexample: on a malformed (non-list) ranking payload the source
raises a TypeError out of get_top_futures_symbols instead of returning the
empty candidate list. -/
theorem C3_counterexample :
    get_top_futures_symbols TickerPayload.malformed 20 = Except.error PyErr.typeError ∧
      get_top_futures_symbols TickerPayload.malformed 20 ≠ Except.ok [] :=
  ⟨rfl, fun h => Except.noConfusion h⟩

/-- C3 (amended): for every limit, a malformed ranking payload makes
get_top_futures_symbols raise a TypeError (which, absent any handler,
propagates out of the component); it does not return an empty sequence. -/
theorem C3_amended (limit : ℕ) :
    get_top_futures_symbols TickerPayload.malformed limit = Except.error PyErr.typeError :=
  rfl

/-- C8 counterexample: a well-formed payload holding the same symbol twice
makes get_top_futures_symbols return a list with duplicates, so the claimed
deduplication does not hold. -/
theorem C8_counterexample :
    get_top_futures_symbols
        (TickerPayload.records [⟨"AUSDT", 2⟩, ⟨"AUSDT", 1⟩]) 2 =
      Except.ok ["AUSDT", "AUSDT"] ∧
      ¬ (["AUSDT", "AUSDT"] : List String).Nodup :=
  ⟨by rfl, by decide⟩

/-- C8 (amended): for every limit of at least 1 and well-formed ticker
payload, the candidate list has length at most limit, every entry ends in
USDT and none contains PERP, it is the symbol image of a descending-volume
record sequence drawn from the payload, and all qualifying symbols are
returned when fewer than limit qualify; it is duplicate-free provided the
payload itself carries no duplicate symbol (the source never deduplicates). -/
theorem C8_amended (ts : List Ticker) (limit : ℕ) (hlim : 1 ≤ limit) :
    ∃ res, get_top_futures_symbols (.records ts) limit = .ok res ∧
      res.length ≤ limit ∧
      (∀ s ∈ res, pyEndsWith s "USDT" = true ∧ pyContains s "PERP" = false) ∧
      ((ts.map Ticker.symbol).Nodup → res.Nodup) ∧
      (∃ sel : List Ticker, res = sel.map Ticker.symbol ∧
        List.Pairwise (fun a b => b.quoteVolume ≤ a.quoteVolume) sel ∧
        ∀ t ∈ sel, t ∈ ts) ∧
      ((ts.filter qualifies).length < limit →
        res = ((sortByVolume ts).filter qualifies).map Ticker.symbol) := by
  refine ⟨topLoop limit (sortByVolume ts) [], rfl, ?_, ?_, ?_, ?_, ?_⟩
  · have h1 := topLoop_length_le limit (sortByVolume ts) []
    simp only [List.length_nil] at h1
    omega
  · intro s hs
    rcases topLoop_mem limit (sortByVolume ts) [] s hs with h | ⟨t, _, hq, he⟩
    · cases h
    · rw [he]
      exact (qualifies_iff t).mp hq
  · intro hnd
    obtain ⟨n, hn⟩ := topLoop_eq_take limit (sortByVolume ts) []
    rw [hn]
    simp only [List.nil_append]
    have hsub : (((sortByVolume ts).filter qualifies).map Ticker.symbol).take n
        |>.Sublist ((sortByVolume ts).map Ticker.symbol) :=
      (List.take_sublist _ _).trans ((List.filter_sublist _).map Ticker.symbol)
    exact hsub.nodup (((sortByVolume_perm ts).map Ticker.symbol).nodup_iff.mpr hnd)
  · obtain ⟨n, hn⟩ := topLoop_eq_take limit (sortByVolume ts) []
    refine ⟨((sortByVolume ts).filter qualifies).take n, ?_, ?_, ?_⟩
    · rw [hn]
      simp [List.map_take]
    · exact ((sortByVolume_sorted ts).sublist (List.filter_sublist _)).sublist
        (List.take_sublist _ _)
    · intro t ht
      exact (sortByVolume_perm ts).mem_iff.mp
        (List.mem_of_mem_filter (List.mem_of_mem_take ht))
  · intro hlt
    have hperm : ((sortByVolume ts).filter qualifies).Perm (ts.filter qualifies) :=
      (sortByVolume_perm ts).filter qualifies
    have : (((sortByVolume ts).filter qualifies).length) < limit := by
      rw [hperm.length_eq]
      exact hlt
    have := topLoop_all limit (sortByVolume ts) [] (by simpa using this)
    simpa using this

theorem C8_amended_witness :
    (1 : ℕ) ≤ 20 ∧
      (∃ res, get_top_futures_symbols (.records [⟨"BUSDT", 1⟩]) 20 = .ok res ∧
        res.length ≤ 20 ∧
        (∀ s ∈ res, pyEndsWith s "USDT" = true ∧ pyContains s "PERP" = false) ∧
        ((([⟨"BUSDT", 1⟩] : List Ticker).map Ticker.symbol).Nodup → res.Nodup) ∧
        (∃ sel : List Ticker, res = sel.map Ticker.symbol ∧
          List.Pairwise (fun a b => b.quoteVolume ≤ a.quoteVolume) sel ∧
          ∀ t ∈ sel, t ∈ ([⟨"BUSDT", 1⟩] : List Ticker)) ∧
        ((([⟨"BUSDT", 1⟩] : List Ticker).filter qualifies).length < 20 →
          res = ((sortByVolume [⟨"BUSDT", 1⟩]).filter qualifies).map Ticker.symbol)) :=
  ⟨by decide, C8_amended [⟨"BUSDT", 1⟩] 20 (by decide)⟩

/-- C10: the length check of the collection loop runs only after the
conditional append, so the result length never exceeds max(limit, 1); and
with limit = 0, when the first record in descending-volume order
qualifies, the function returns that single symbol rather than an empty
list. -/
theorem C10_truncation_after_append :
    (∀ (ts : List Ticker) (limit : ℕ), ∃ res,
        get_top_futures_symbols (.records ts) limit = .ok res ∧
          res.length ≤ max limit 1) ∧
    (∀ (ts : List Ticker) (t : Ticker) (rest : List Ticker),
        sortByVolume ts = t :: rest → qualifies t = true →
          get_top_futures_symbols (.records ts) 0 = .ok [t.symbol]) := by
  constructor
  · intro ts limit
    refine ⟨topLoop limit (sortByVolume ts) [], rfl, ?_⟩
    have h1 := topLoop_length_le limit (sortByVolume ts) []
    simp only [List.length_nil] at h1
    omega
  · intro ts t rest hsort hq
    show Except.ok (topLoop 0 (sortByVolume ts) []) = _
    rw [hsort]
    simp [topLoop, hq]

theorem C10_witness :
    sortByVolume [⟨"AUSDT", 1⟩] = [⟨"AUSDT", 1⟩] ∧
      qualifies ⟨"AUSDT", 1⟩ = true ∧
      get_top_futures_symbols (.records [⟨"AUSDT", 1⟩]) 0 = .ok ["AUSDT"] :=
  ⟨rfl, by decide,
    C10_truncation_after_append.2 [⟨"AUSDT", 1⟩] ⟨"AUSDT", 1⟩ [] rfl (by decide)⟩

/-- C4 counterexample: a klines payload of one-field rows (maximum width 1
instead of the twelve passed columns) makes fetch_ohlcv raise a ValueError
instead of returning an empty Series, so the fetch does not hold the
never-raises contract over every upstream response. -/
theorem C4_counterexample :
    fetch_ohlcv (KlinesPayload.rows [[(0 : ℚ)]]) = Except.error PyErr.valueError ∧
      fetch_ohlcv (KlinesPayload.rows [[(0 : ℚ)]]) ≠
        Except.ok { rows := [], scored := none } :=
  ⟨rfl, fun h => Except.noConfusion h⟩

/-- C4 (amended): fetch_ohlcv returns an explicitly empty frame for an
empty payload and for the exchange's non-tabular error object (column
selection from a dict with disjoint keys); a non-empty list of rows is
accepted, NaN-padded, whenever its maximum width is 12, and raises a
ValueError, which propagates since there is no handler, exactly when that
width differs from 12. -/
theorem C4_amended :
    fetch_ohlcv (KlinesPayload.rows []) = Except.ok { rows := [], scored := none } ∧
      fetch_ohlcv KlinesPayload.errorObject = Except.ok { rows := [], scored := none } ∧
      (∀ rs : List (List ℚ), rs ≠ [] → maxWidth rs = 12 →
        fetch_ohlcv (KlinesPayload.rows rs) =
          Except.ok { rows := rs.map rowToCandle, scored := none }) ∧
      (∀ rs : List (List ℚ), rs ≠ [] → maxWidth rs ≠ 12 →
        fetch_ohlcv (KlinesPayload.rows rs) = Except.error PyErr.valueError) := by
  refine ⟨rfl, rfl, ?_, ?_⟩
  · intro rs hne hw
    simp only [fetch_ohlcv]
    rw [if_neg (by simpa [List.isEmpty_iff] using hne), if_pos hw]
  · intro rs hne hw
    simp only [fetch_ohlcv]
    rw [if_neg (by simpa [List.isEmpty_iff] using hne), if_neg hw]

theorem C4_amended_witness :
    (([[(0 : ℚ), 0, 0, 0, 0, 0, 0, 0, 0, 0, 0, 0], [5]] : List (List ℚ)) ≠ [] ∧
      maxWidth [[(0 : ℚ), 0, 0, 0, 0, 0, 0, 0, 0, 0, 0, 0], [5]] = 12 ∧
      fetch_ohlcv (KlinesPayload.rows [[(0 : ℚ), 0, 0, 0, 0, 0, 0, 0, 0, 0, 0, 0], [5]]) =
        Except.ok { rows := ([[(0 : ℚ), 0, 0, 0, 0, 0, 0, 0, 0, 0, 0, 0], [5]] :
            List (List ℚ)).map rowToCandle, scored := none }) ∧
      (([[(0 : ℚ)]] : List (List ℚ)) ≠ [] ∧ maxWidth [[(0 : ℚ)]] ≠ 12 ∧
        fetch_ohlcv (KlinesPayload.rows [[(0 : ℚ)]]) = Except.error PyErr.valueError) :=
  ⟨⟨by decide, by decide, C4_amended.2.2.1 _ (by decide) (by decide)⟩,
    ⟨by decide, by decide, C4_amended.2.2.2 _ (by decide) (by decide)⟩⟩

/-- Response map for the C1 counterexample: the first symbol answers with a
wrong-width kline array, on which pd.DataFrame raises, every other symbol
with a well-formed empty list. -/
def respBad : String → KlinesPayload :=
  fun s => if s = "AAAUSDT" then KlinesPayload.rows [[0]] else KlinesPayload.rows []

/-- C1 counterexample: with two candidates whose first fetch raises, the
module-level loop aborts with the exception — the batch does not complete
and no RunResult with the remaining symbol is produced. -/
theorem C1_counterexample :
    runBatch respBad ["AAAUSDT", "BBBUSDT"] = Except.error PyErr.valueError := by
  simp [runBatch, respBad, fetch_ohlcv, maxWidth]

/-- C1 (amended): a symbol whose fetch yields an empty Series is merely
omitted — the batch result is the same as without that candidate — but a
symbol whose fetch raises aborts the whole batch with that exception (the
loop has no try/except), as the leading-candidate case shows. -/
theorem C1_amended :
    (∀ (resp : String → KlinesPayload) (X : String) (pre post : List String),
        resp X = KlinesPayload.rows [] →
          runBatch resp (pre ++ X :: post) = runBatch resp (pre ++ post)) ∧
    (∀ (resp : String → KlinesPayload) (X : String) (post : List String) (e : PyErr),
        fetch_ohlcv (resp X) = Except.error e →
          runBatch resp (X :: post) = Except.error e) := by
  constructor
  · intro resp X pre post hX
    induction pre with
    | nil =>
      simp only [List.nil_append]
      rw [runBatch, hX]
      have hfetch : fetch_ohlcv (KlinesPayload.rows []) =
          Except.ok { rows := [], scored := none } := rfl
      rw [hfetch]
      have hsp :
          (detect_volume_spikes { rows := [], scored := none } batchThreshold).2 = [] :=
        spikes_eq_nil_of_short (by simp)
      cases hrb : runBatch resp post with
      | error e => simp [hrb]
      | ok rest => simp [hrb, hsp]
    | cons c cs ih =>
      simp only [List.cons_append]
      simp only [runBatch]
      cases hf : fetch_ohlcv (resp c) with
      | error e => rfl
      | ok df => rw [ih]
  · intro resp X post e hX
    rw [runBatch, hX]

/-! ### Fixtures and claim theorems for the spike detector -/

/-- Seven-row fixture: volumes 5, 5, 10, 10, 10, 10, 20, all above the
notional floor.  Its trailing window at row 6 has mean 10 and sample
standard deviation 5. -/
def demoCandles : List Candle :=
  [⟨0, 5, 200000000⟩, ⟨1, 5, 200000000⟩, ⟨2, 10, 200000000⟩, ⟨3, 10, 200000000⟩,
   ⟨4, 10, 200000000⟩, ⟨5, 10, 200000000⟩, ⟨6, 20, 200000000⟩]

/-- Frame around the seven-row fixture, before any detection ran. -/
def demoFrame : Frame := { rows := demoCandles, scored := none }

lemma demo_mean : windowMean (demoFrame.rows.map Candle.volume) 6 = 10 := by
  norm_num [windowMean, trailingWindow, demoFrame, demoCandles]

lemma demo_var : windowVar (demoFrame.rows.map Candle.volume) 6 = 25 := by
  norm_num [windowVar, windowMean, trailingWindow, demoFrame, demoCandles]

lemma demo_sqrt :
    Real.sqrt ((windowVar (demoFrame.rows.map Candle.volume) 6 : ℚ) : ℝ) = 5 := by
  rw [demo_var, show ((25 : ℚ) : ℝ) = (5 : ℝ) ^ 2 by norm_num]
  exact Real.sqrt_sq (by norm_num)

lemma demo_mem_tf1 :
    ((6 : ℕ), (⟨6, 20, 200000000⟩ : Candle)) ∈ (detect_volume_spikes demoFrame 1).2 := by
  rw [mem_spikes_char]
  refine ⟨by decide, by omega, ?_, by decide⟩
  rw [demo_mean, demo_sqrt]
  norm_num

lemma demo_not_mem_tf3 :
    ((6 : ℕ), (⟨6, 20, 200000000⟩ : Candle)) ∉ (detect_volume_spikes demoFrame 3).2 := by
  rw [mem_spikes_char]
  rintro ⟨-, -, hgt, -⟩
  rw [demo_mean, demo_sqrt] at hgt
  norm_num at hgt

/-- C2: a row is in the returned spike rows iff its volume strictly exceeds
the mean plus threshold_factor times the sample standard deviation of
volume over the trailing seven-row window ending at it (statistics that
exist only once seven rows are available) and its quote volume is at least
the absolute floor; both conjuncts are required. -/
theorem C2_spike_membership (df : Frame) (tf : ℚ) (i : ℕ) (c : Candle) :
    (i, c) ∈ (detect_volume_spikes df tf).2 ↔
      df.rows[i]? = some c ∧ 7 ≤ i + 1 ∧
        ((c.volume : ℝ) > (windowMean (df.rows.map Candle.volume) i : ℝ) +
          (tf : ℝ) * Real.sqrt ((windowVar (df.rows.map Candle.volume) i : ℚ) : ℝ)) ∧
        volumeFloor ≤ c.quote_asset_volume :=
  mem_spikes_char df tf i c

theorem C2_spike_membership_witness :
    ((6 : ℕ), (⟨6, 20, 200000000⟩ : Candle)) ∈ (detect_volume_spikes demoFrame 1).2 :=
  (C2_spike_membership demoFrame 1 6 ⟨6, 20, 200000000⟩).mpr
    ⟨by decide, by omega, by rw [demo_mean, demo_sqrt]; norm_num, by decide⟩

/-- C7: a Series shorter than the seven-row window yields no spike rows at
all, and any row with fewer than seven observations in its trailing window
has undefined (none) rolling statistics and is never flagged. -/
theorem C7_short_series (df : Frame) (tf : ℚ) :
    (df.rows.length < 7 → (detect_volume_spikes df tf).2 = []) ∧
      ∀ i, i + 1 < 7 →
        volMA (df.rows.map Candle.volume) i = none ∧
        volStd (df.rows.map Candle.volume) i = none ∧
        spikeFlag (df.rows.map Candle.volume) tf i = false ∧
        ∀ c, (i, c) ∉ (detect_volume_spikes df tf).2 := by
  refine ⟨fun h => spikes_eq_nil_of_short h, ?_⟩
  intro i hi
  refine ⟨volMA_eq_none hi, volStd_eq_none hi, spikeFlag_eq_false_of_small hi, ?_⟩
  intro c hmem
  rw [mem_spikes_iff, spikeFlag_eq_false_of_small hi] at hmem
  exact Bool.false_ne_true hmem.2.1

/-- Two-row fixture frame, shorter than the rolling window. -/
def shortFrame : Frame := { rows := [⟨0, 1, 1⟩, ⟨1, 2, 1⟩], scored := none }

theorem C7_short_series_witness :
    shortFrame.rows.length < 7 ∧
      (detect_volume_spikes shortFrame 2).2 = [] ∧
      (0 : ℕ) + 1 < 7 ∧
      volMA (shortFrame.rows.map Candle.volume) 0 = none :=
  ⟨by decide, (C7_short_series shortFrame 2).1 (by decide), by decide,
    ((C7_short_series shortFrame 2).2 0 (by decide)).1⟩

/-- C5 counterexample: the source default of threshold_factor is 2, not the
claimed 2.2 (the value 2.2 appears only at the aggregation call site). -/
theorem C5_counterexample : detect_volume_spikes_default_threshold ≠ (2.2 : ℚ) := by
  norm_num [detect_volume_spikes_default_threshold]

/-- C5 (amended): threshold_factor is the only tunable parameter of the
detector and its source default is 2, while the aggregation call site
passes 2.2; the window length 7 and the floor 100000000 are hard-coded, so
every returned row has a full seven-row window and a quote volume of at
least the fixed floor, whatever the threshold. -/
theorem C5_amended :
    detect_volume_spikes_default_threshold = 2 ∧
      batchThreshold = 11 / 5 ∧
      (∃ (df : Frame) (t1 t2 : ℚ),
        (detect_volume_spikes df t1).2 ≠ (detect_volume_spikes df t2).2) ∧
      ∀ (df : Frame) (tf : ℚ) (i : ℕ) (c : Candle),
        (i, c) ∈ (detect_volume_spikes df tf).2 →
          100000000 ≤ c.quote_asset_volume ∧ 7 ≤ i + 1 := by
  refine ⟨rfl, by norm_num [batchThreshold], ?_, ?_⟩
  · exact ⟨demoFrame, 1, 3, fun he => demo_not_mem_tf3 (he ▸ demo_mem_tf1)⟩
  · intro df tf i c hmem
    rw [mem_spikes_char] at hmem
    exact ⟨hmem.2.2.2, hmem.2.1⟩

theorem C5_amended_witness :
    ((6 : ℕ), (⟨6, 20, 200000000⟩ : Candle)) ∈ (detect_volume_spikes demoFrame 1).2 ∧
      (100000000 ≤ (⟨6, 20, 200000000⟩ : Candle).quote_asset_volume ∧ 7 ≤ 6 + 1) :=
  ⟨demo_mem_tf1, C5_amended.2.2.2 demoFrame 1 6 ⟨6, 20, 200000000⟩ demo_mem_tf1⟩

/-- C6 counterexample: detect_volume_spikes mutates the frame it is given;
on a frame without derived columns the post-call frame differs from the
original object the caller passed in. -/
theorem C6_counterexample :
    (detect_volume_spikes { rows := [], scored := none } 2).1 ≠
      { rows := [], scored := none } := by
  intro h
  have h2 := congrArg Frame.scored h
  simp [detect_volume_spikes] at h2

/-- C6 (amended): detect_volume_spikes leaves the base rows unchanged but
writes the three derived columns onto the caller's frame, so a frame that
had no derived columns is observably mutated by the call (the plotting
code relies on seeing volume_ma on the frame it passed to detection). -/
theorem C6_amended (df : Frame) (tf : ℚ) :
    (detect_volume_spikes df tf).1.rows = df.rows ∧
      (∃ cols, (detect_volume_spikes df tf).1.scored = some cols) ∧
      (df.scored = none → (detect_volume_spikes df tf).1 ≠ df) := by
  refine ⟨rfl, ⟨_, rfl⟩, ?_⟩
  intro hn he
  have h2 := congrArg Frame.scored he
  rw [hn] at h2
  simp [detect_volume_spikes] at h2

theorem C6_amended_witness :
    ({ rows := [], scored := none } : Frame).scored = none ∧
      (detect_volume_spikes { rows := [], scored := none } 2).1 ≠
        { rows := [], scored := none } :=
  ⟨rfl, (C6_amended { rows := [], scored := none } 2).2.2 rfl⟩

/-- Response map answering every symbol with a well-formed empty payload. -/
def respAllEmpty : String → KlinesPayload := fun _ => KlinesPayload.rows []

theorem C1_amended_witness :
    respAllEmpty "XUSDT" = KlinesPayload.rows [] ∧
      runBatch respAllEmpty ["XUSDT", "BBBUSDT"] = runBatch respAllEmpty ["BBBUSDT"] ∧
      fetch_ohlcv (respBad "AAAUSDT") = Except.error PyErr.valueError ∧
      runBatch respBad ["AAAUSDT"] = Except.error PyErr.valueError :=
  ⟨rfl, C1_amended.1 respAllEmpty "XUSDT" [] ["BBBUSDT"] rfl,
    rfl, C1_amended.2 respBad "AAAUSDT" [] PyErr.valueError rfl⟩

/-- C9: plotting with a selected date highlights exactly the rows whose
timestamp matches it: any exactly-matching row is in the highlight, and
when no row matches the payload simply has an empty highlight while the
call still succeeds. -/
theorem C9_highlight (rows : List Candle) (cols : ScoredCols)
    (spikes : List (ℕ × Candle)) (d : ℚ) :
    ∃ p, plot_volume_spikes { rows := rows, scored := some cols } spikes (some d) =
        Except.ok p ∧
      (∀ c ∈ rows, c.timestamp = d → c ∈ p.highlight) ∧
      ((∀ c ∈ rows, c.timestamp ≠ d) → p.highlight = []) := by
  refine ⟨_, rfl, ?_, ?_⟩
  · intro c hc hts
    have hmem : c ∈ rows.filter (fun c => decide (c.timestamp = d)) :=
      List.mem_filter.mpr ⟨hc, by simp [hts]⟩
    exact hmem
  · intro hall
    show rows.filter (fun c => decide (c.timestamp = d)) = []
    rw [List.filter_eq_nil_iff]
    intro c hc
    simp [hall c hc]

theorem C9_highlight_witness :
    ∃ p, plot_volume_spikes { rows := [⟨0, 1, 1⟩], scored := some ⟨[], [], []⟩ }
          [] (some 5) = Except.ok p ∧ p.highlight = [] := by
  obtain ⟨p, hp, _, hnone⟩ := C9_highlight [⟨0, 1, 1⟩] ⟨[], [], []⟩ [] 5
  exact ⟨p, hp, hnone (by decide)⟩
